import Mathlib

/-!
Verification of the geo-add-crawl data-collection pipeline.

This file embeds the core of the repository in Lean 4:

* `HttpService.get` (src/services/htpp_service.py): the retrying HTTP GET,
  modelled as a fold over the sequence of per-attempt outcomes, recording
  the value returned, the number of attempts issued and the backoff sleeps.
* `fetchPaginated` (`_fetch_paginated` in
  src/services/chainbase_crawler_service.py): the page loop, modelled over
  an arbitrary provider behaviour (one `PageResponse` per request index),
  recording the issued page requests and the result (a list, or the raised
  `ChainbaseAPIError`).
* `fetch_data`, `process_batch` and the batch loop of `main`
  (src/main.py), with the three sub-fetch behaviours as parameters.
* `main_tail`: the persistence tail of `main` (MONGO_URI check, bulk
  insert, backup spill, session close), as an effect trace.

Side effects with no bearing on the verified properties (logging,
`asyncio.sleep`, the fixed transaction time-window query parameters) are
not modelled.
-/

namespace GeoAddCrawl

/-- Python exception values, abstracted to their message. -/
abbrev PyExn : Type := String

/-! ### HttpService (src/services/htpp_service.py) -/

/-- `MAX_RETRIES = 3` in src/services/htpp_service.py. -/
def MAX_RETRIES : Nat := 3

/-- `HTTPStatus.NOT_FOUND = 404`. -/
def NOT_FOUND : Nat := 404

/-- Outcome of one attempt of `self.session.get(...)` inside
`HttpService.get`: either the parsed JSON body (of type `α`), or one of the
three exception classes the code distinguishes (`aiohttp.ClientResponseError`
with its HTTP status, `aiohttp.ClientError`, any other `Exception`). -/
inductive AttemptOutcome (α : Type) where
  | success (body : α)
  | httpError (status : Nat)
  | clientError
  | otherError
deriving DecidableEq

/-- An attempt outcome that the retry loop retries: any error other than an
HTTP 404 response. -/
def AttemptOutcome.retryableB {α : Type} : AttemptOutcome α → Bool
  | .success _ => false
  | .httpError status => status != NOT_FOUND
  | .clientError => true
  | .otherError => true

/-- Observable outcome of one call to `HttpService.get`: the returned value
(`none` models Python's `None`), the number of attempts issued, and the list
of backoff sleeps (in seconds, in order). -/
structure GetResult (α : Type) where
  result : Option α
  attempts : Nat
  delays : List Nat
deriving DecidableEq

/-- The body of the `for attempt in range(MAX_RETRIES + 1)` loop of
`HttpService.get`, from loop index `attempt` on, with `fuel` iterations left.
A success returns the body at once; a 404 breaks out of the loop (the
function then returns `data`, still `None`); any other error sleeps
`2 ** attempt` seconds and retries while `attempt < MAX_RETRIES`, else falls
through and returns `None`. -/
def getFrom {α : Type} (outcomes : Nat → AttemptOutcome α) :
    Nat → Nat → GetResult α
  | attempt, 0 => ⟨none, attempt, []⟩
  | attempt, fuel + 1 =>
    match outcomes attempt with
    | .success body => ⟨some body, attempt + 1, []⟩
    | .httpError status =>
      if status = NOT_FOUND then ⟨none, attempt + 1, []⟩
      else if attempt < MAX_RETRIES then
        let r := getFrom outcomes (attempt + 1) fuel
        ⟨r.result, r.attempts, 2 ^ attempt :: r.delays⟩
      else ⟨none, attempt + 1, []⟩
    | .clientError =>
      if attempt < MAX_RETRIES then
        let r := getFrom outcomes (attempt + 1) fuel
        ⟨r.result, r.attempts, 2 ^ attempt :: r.delays⟩
      else ⟨none, attempt + 1, []⟩
    | .otherError =>
      if attempt < MAX_RETRIES then
        let r := getFrom outcomes (attempt + 1) fuel
        ⟨r.result, r.attempts, 2 ^ attempt :: r.delays⟩
      else ⟨none, attempt + 1, []⟩

/-- `HttpService.get` with a started session, run against the given sequence
of per-attempt outcomes. -/
def HttpService.get {α : Type} (outcomes : Nat → AttemptOutcome α) :
    GetResult α :=
  getFrom outcomes 0 (MAX_RETRIES + 1)

/-! ### fetch_data (src/main.py) -/

/-- Pydantic model `TokenMeta` of src/services/chainbase_crawler_service.py. -/
structure TokenMeta where
  contract_address : String
deriving DecidableEq

/-- Pydantic model `TransactionMeta`. -/
structure TransactionMeta where
  value : String
  block_timestamp : String
deriving DecidableEq

/-- The `{"value": ..., "block_timestamp": ...}` projection built by
`fetch_data` for each transaction. -/
structure TxProj where
  value : String
  block_timestamp : String
deriving DecidableEq

/-- The per-address record returned by `fetch_data`. `balance = none` models
the absence of the `"balance"` key (the degraded shape); `balance = some b`
models its presence. -/
structure AddressRecord where
  address : String
  tokens : List String
  transactions : List TxProj
  balance : Option String
deriving DecidableEq

/-- The degraded record `{"address": address, "tokens": [], "transactions": []}`
returned by the `except` branch of `fetch_data`. -/
def degraded_record (address : String) : AddressRecord :=
  { address := address, tokens := [], transactions := [], balance := none }

/-- The `try` body of `fetch_data`: the three sub-fetches in program order
(tokens, transactions, balance), short-circuiting at the first raise, each
sub-fetch outcome given as an `Except`. -/
def fetch_data_body (address : String)
    (tokensRes : Except PyExn (List TokenMeta))
    (txRes : Except PyExn (List TransactionMeta))
    (balRes : Except PyExn String) : Except PyExn AddressRecord := do
  let tokenMeta_list ← tokensRes
  let token_list := tokenMeta_list.map (fun token => token.contract_address)
  let txMeta_list ← txRes
  let tx_list := txMeta_list.map (fun tx => TxProj.mk tx.value tx.block_timestamp)
  let balance ← balRes
  pure { address := address, tokens := token_list, transactions := tx_list,
         balance := some balance }

/-- `fetch_data` of src/main.py: the `try` body, with `except Exception`
converting any raise into the degraded record. The return type `AddressRecord`
(rather than `Except`) reflects that no exception propagates out. -/
def fetch_data (address : String)
    (tokensRes : Except PyExn (List TokenMeta))
    (txRes : Except PyExn (List TransactionMeta))
    (balRes : Except PyExn String) : AddressRecord :=
  match fetch_data_body address tokensRes txRes balRes with
  | .ok record => record
  | .error _ => degraded_record address

/-- The method set of `ChainbaseCrawlerService`
(src/services/chainbase_crawler_service.py): the class defines `get_tokens`
and `get_transactions` and no `get_balance`. -/
inductive ServiceMethod where
  | get_tokens
  | get_transactions
  | get_balance
deriving DecidableEq

/-- The methods `ChainbaseCrawlerService` actually defines. -/
def ChainbaseCrawlerService.methods : List ServiceMethod :=
  [ServiceMethod.get_tokens, ServiceMethod.get_transactions]

/-- Python attribute lookup on a `ChainbaseCrawlerService` instance: a
defined method resolves; any other name raises `AttributeError`. -/
def ChainbaseCrawlerService.getattr (m : ServiceMethod) :
    Except PyExn ServiceMethod :=
  if m ∈ ChainbaseCrawlerService.methods then .ok m
  else .error "AttributeError"

/-! ### _fetch_paginated (src/services/chainbase_crawler_service.py) -/

/-- `MAX_PAGE = 100` in `_fetch_paginated`. -/
def MAX_PAGE : Nat := 100

/-- The fixed `"limit": 100` query parameter of every page request. -/
def PAGE_LIMIT : Nat := 100

/-- The `page` and `limit` query parameters carried by one page request
(`params` starts at `{"page": 1, "limit": 100}` and `params["page"] += 1`
between pages). -/
structure PageParams where
  page : Nat
  limit : Nat
deriving DecidableEq

/-- `ChainbaseAPIError`, the exception `_fetch_paginated` raises. -/
inductive ChainbaseError where
  | apiError
deriving DecidableEq

/-- Provider behaviour for one page request inside `_fetch_paginated`:
`absent` models `http_client.get` returning `None`; `notDict` a JSON value
that is not an object; `dict code data next_page` a JSON object conforming
to the `ChainbaseResponse` envelope (`data = none` models a null `data`
field). Page items have type `α`. -/
inductive PageResponse (α : Type) where
  | absent
  | notDict
  | dict (code : Int) (data : Option (List α)) (next_page : Option Int)
deriving DecidableEq

/-- A page response on which the loop keeps going: a well-formed envelope
with `code = 0` and a non-null `next_page`. -/
def PageResponse.isContinuing {α : Type} : PageResponse α → Bool
  | .dict code _ (some _) => code == 0
  | _ => false

/-- A page response `_fetch_paginated` rejects with `ChainbaseAPIError`:
not a JSON object, or an envelope whose `code` is not 0. -/
def PageResponse.isBadEnvelope {α : Type} : PageResponse α → Bool
  | .notDict => true
  | .dict code _ _ => code != 0
  | .absent => false

/-- Observable outcome of one `_fetch_paginated` call: the result (the
accumulated item list, or the raised `ChainbaseAPIError`) and the page
requests issued, in order. -/
structure PaginatedOutcome (α : Type) where
  result : Except ChainbaseError (List α)
  requests : List PageParams

/-- The `for _ in range(MAX_PAGE)` loop of `_fetch_paginated`, from request
index `i` on (request `i` carries `page = i + 1`), with accumulated
`results` and `fuel` iterations left. `None` from the HTTP client returns
`[]`; a non-dict response or a nonzero envelope `code` raises; otherwise
`results.extend(res.get("data") or [])` and the loop breaks when
`next_page` is null, else moves to the next page. -/
def fetchPaginatedAux {α : Type} (pages : Nat → PageResponse α) :
    Nat → List α → Nat → PaginatedOutcome α
  | _, results, 0 => ⟨.ok results, []⟩
  | i, results, fuel + 1 =>
    let req : PageParams := ⟨i + 1, PAGE_LIMIT⟩
    match pages i with
    | .absent => ⟨.ok [], [req]⟩
    | .notDict => ⟨.error .apiError, [req]⟩
    | .dict code data next_page =>
      if code ≠ 0 then ⟨.error .apiError, [req]⟩
      else
        let results2 := results ++ data.getD []
        match next_page with
        | none => ⟨.ok results2, [req]⟩
        | some _ =>
          let r := fetchPaginatedAux pages (i + 1) results2 fuel
          ⟨r.result, req :: r.requests⟩

/-- `_fetch_paginated` run against the given provider behaviour. -/
def fetchPaginated {α : Type} (pages : Nat → PageResponse α) :
    PaginatedOutcome α :=
  fetchPaginatedAux pages 0 [] MAX_PAGE

/-! ### process_batch and the batch loop of main (src/main.py) -/

/-- Python's `str.split(sep)` with a one-character separator, on the
exploded character list: splits at every occurrence of `sep`, so the empty
string yields `[""]`, never `[]`. Models
`os.getenv("API_KEYS", "").split(sep=",")`. -/
def pySplitAux (sep : Char) : List Char → List Char → List String
  | [], cur => [String.mk cur.reverse]
  | c :: rest, cur =>
    if c = sep then String.mk cur.reverse :: pySplitAux sep rest []
    else pySplitAux sep rest (c :: cur)

/-- Python's `s.split(sep=sep)` for a one-character separator. -/
def pySplit (sep : Char) (s : String) : List String :=
  pySplitAux sep s.data []

/-- `API_KEYS: list[str] = os.getenv("API_KEYS", "").split(sep=",")` for a
given value of the environment variable (the empty string when unset). -/
def parseApiKeys (env : String) : List String :=
  pySplit ',' env

/-- Observable outcome of one `process_batch` call: the `fetch_data` tasks
created (as `(api_key, address)` pairs, in order) and the result (the
gathered record list, or the raised `ValueError`). -/
structure BatchOutcome where
  tasks : List (String × String)
  result : Except PyExn (List AddressRecord)

/-- `process_batch` of src/main.py, with the per-address enrichment
(`fetch_data` applied to an api key and an address) as a parameter. The
guard `len(addresses) > len(API_KEYS)` raises before any task is created;
otherwise task `i` pairs `API_KEYS[i]` with `addresses[i]`, and
`asyncio.gather` returns the records in task order. -/
def process_batch (api_keys : List String)
    (enrich : String → String → AddressRecord)
    (addresses : List String) : BatchOutcome :=
  if addresses.length > api_keys.length then
    ⟨[], .error "ValueError: Number of addresses exceeds number of API keys."⟩
  else
    let tasks := api_keys.zip addresses
    ⟨tasks, .ok (tasks.map (fun t => enrich t.1 t.2))⟩

/-- Recursion worker for `batch_slices`, structural on a fuel bound on the
list length. For `bs ≥ 1`, `(a :: rest).drop bs = rest.drop (bs - 1)`: each
step emits the slice `addresses[0 : bs]` and recurses on `addresses[bs :]`. -/
def batch_slices_go (bs : Nat) : Nat → List String → List (List String)
  | 0, _ => []
  | _ + 1, [] => []
  | fuel + 1, a :: rest =>
    (a :: rest).take bs :: batch_slices_go bs fuel (rest.drop (bs - 1))

/-- The slice list `[addresses[i : i + bs] for i in range(0, len(addresses), bs)]`
built by `main`. -/
def batch_slices (bs : Nat) (addresses : List String) : List (List String) :=
  batch_slices_go bs addresses.length addresses

/-- The `for batch in batch_addresses` loop of `main`: runs
`process_batch` on each slice in order, extending `final_results`; a raise
from `process_batch` propagates out of the loop. -/
def run_batches (api_keys : List String)
    (enrich : String → String → AddressRecord) :
    List (List String) → List AddressRecord → Except PyExn (List AddressRecord)
  | [], final_results => .ok final_results
  | batch :: more, final_results =>
    match (process_batch api_keys enrich batch).result with
    | .error e => .error e
    | .ok result => run_batches api_keys enrich more (final_results ++ result)

/-- The data-collection phase of `main`: `BATCH_SIZE = len(API_KEYS)`,
slicing, and the batch loop. -/
def main_collect (api_keys : List String)
    (enrich : String → String → AddressRecord)
    (addresses : List String) : Except PyExn (List AddressRecord) :=
  run_batches api_keys enrich (batch_slices api_keys.length addresses) []

/-- The per-address enrichment `main` actually uses: `fetch_data` with the
three sub-fetch behaviours (functions of api key and address) as
parameters. -/
def enrichOf
    (tok : String → String → Except PyExn (List TokenMeta))
    (tx : String → String → Except PyExn (List TransactionMeta))
    (bal : String → String → Except PyExn String) :
    String → String → AddressRecord :=
  fun api_key address =>
    fetch_data address (tok api_key address) (tx api_key address)
      (bal api_key address)

/-! ### The persistence tail of main (src/main.py) -/

/-- Effect trace of the tail of `main` (from the `MONGO_URI` check to the
end): how many bulk inserts were attempted, the backup file written (name
and contents), the exception propagating out of `main` (if any), and
whether `await http_client.close()` was reached. -/
structure MainTailTrace where
  insertAttempts : Nat
  backupFile : Option (String × List AddressRecord)
  uncaught : Option PyExn
  sessionClosed : Bool
deriving DecidableEq

/-- The tail of `main`: if `MONGO_URI` is empty, log and `return` (before
the `await http_client.close()` at the end of `main`); otherwise attempt
the bulk insert when `final_results` is non-empty; on an insert raise,
write `backup_results_<ts>.json` with the full result list (the nested
`try` absorbs a raise from the file write); finally close the HTTP
session. `insertOutcome` is the behaviour of `insert_many`, `backupWrite`
that of the backup `open`/`json.dump`, and `ts` the formatted
`datetime.now()` timestamp. -/
def main_tail (mongoUri : String) (final_results : List AddressRecord)
    (insertOutcome : Except PyExn Nat)
    (backupWrite : Except PyExn Unit)
    (ts : String) : MainTailTrace :=
  if mongoUri = "" then
    { insertAttempts := 0, backupFile := none, uncaught := none,
      sessionClosed := false }
  else if final_results.isEmpty then
    { insertAttempts := 0, backupFile := none, uncaught := none,
      sessionClosed := true }
  else
    match insertOutcome with
    | .ok _ =>
      { insertAttempts := 1, backupFile := none, uncaught := none,
        sessionClosed := true }
    | .error _ =>
      match backupWrite with
      | .ok _ =>
        { insertAttempts := 1,
          backupFile := some ("backup_results_" ++ ts ++ ".json", final_results),
          uncaught := none, sessionClosed := true }
      | .error _ =>
        { insertAttempts := 1, backupFile := none, uncaught := none,
          sessionClosed := true }

/-! ### Theorems about HttpService.get -/

/-- Unfolding one retried attempt: a retryable error before the retry budget
is exhausted sleeps `2 ^ attempt` seconds and continues with the next
attempt. -/
lemma getFrom_retry_step {α : Type} (outcomes : Nat → AttemptOutcome α)
    (attempt fuel : Nat) (h1 : attempt < MAX_RETRIES)
    (h2 : (outcomes attempt).retryableB = true) :
    getFrom outcomes attempt (fuel + 1) =
      ⟨(getFrom outcomes (attempt + 1) fuel).result,
       (getFrom outcomes (attempt + 1) fuel).attempts,
       2 ^ attempt :: (getFrom outcomes (attempt + 1) fuel).delays⟩ := by
  cases h : outcomes attempt with
  | success body => simp [AttemptOutcome.retryableB, h] at h2
  | httpError status =>
    have hne : status ≠ NOT_FOUND := by
      simpa [AttemptOutcome.retryableB, h] using h2
    simp [getFrom, h, hne, h1]
  | clientError => simp [getFrom, h, h1]
  | otherError => simp [getFrom, h, h1]

/-- A 404 response breaks out of the retry loop at once, returning `None`. -/
lemma getFrom_notFound {α : Type} (outcomes : Nat → AttemptOutcome α)
    (attempt fuel : Nat) (h : outcomes attempt = .httpError NOT_FOUND) :
    getFrom outcomes attempt (fuel + 1) = ⟨none, attempt + 1, []⟩ := by
  simp [getFrom, h]

/-- Any error on the last attempt (`attempt = MAX_RETRIES`) ends the loop
with no further sleep, returning `None`. -/
lemma getFrom_last {α : Type} (outcomes : Nat → AttemptOutcome α) (fuel : Nat)
    (h2 : (outcomes MAX_RETRIES).retryableB = true) :
    getFrom outcomes MAX_RETRIES (fuel + 1) = ⟨none, MAX_RETRIES + 1, []⟩ := by
  cases h : outcomes MAX_RETRIES with
  | success body => simp [AttemptOutcome.retryableB, h] at h2
  | httpError status =>
    by_cases hn : status = NOT_FOUND <;> simp [getFrom, h, hn]
  | clientError => simp [getFrom, h]
  | otherError => simp [getFrom, h]

/-- Shifting the backoff delay list by one attempt. -/
lemma pow_delays_shift (attempt k : Nat) :
    2 ^ attempt :: (List.range k).map (fun j => 2 ^ (attempt + 1 + j)) =
      (List.range (k + 1)).map (fun j => 2 ^ (attempt + j)) := by
  rw [List.range_succ_eq_map, List.map_cons, List.map_map]
  refine congrArg₂ _ (by simp) ?_
  refine (List.map_congr_left ?_)
  intro j _
  simp only [Function.comp]
  congr 1
  omega

/-- Chaining `k` retried attempts up to a 404: the call makes exactly
`attempt + k + 1` attempts and sleeps `2 ^ attempt, ..., 2 ^ (attempt + k - 1)`. -/
lemma getFrom_skip_to_notFound {α : Type} (outcomes : Nat → AttemptOutcome α) :
    ∀ (k attempt fuel : Nat),
      attempt + k ≤ MAX_RETRIES →
      (∀ j, j < k → (outcomes (attempt + j)).retryableB = true) →
      outcomes (attempt + k) = .httpError NOT_FOUND →
      k < fuel →
      getFrom outcomes attempt fuel =
        ⟨none, attempt + k + 1,
         (List.range k).map (fun j => 2 ^ (attempt + j))⟩ := by
  intro k
  induction k with
  | zero =>
    intro attempt fuel _ _ h404 hfuel
    obtain ⟨f, rfl⟩ : ∃ f, fuel = f + 1 := ⟨fuel - 1, by omega⟩
    simpa using getFrom_notFound outcomes attempt f (by simpa using h404)
  | succ k ih =>
    intro attempt fuel hle hbefore h404 hfuel
    obtain ⟨f, rfl⟩ : ∃ f, fuel = f + 1 := ⟨fuel - 1, by omega⟩
    rw [getFrom_retry_step outcomes attempt f (by omega)
      (by simpa using hbefore 0 (by omega))]
    rw [ih (attempt + 1) f (by omega)
      (fun j hj => by
        have := hbefore (j + 1) (by omega)
        simpa [Nat.add_assoc, Nat.add_comm 1 j] using this)
      (by
        have : attempt + 1 + k = attempt + (k + 1) := by omega
        rw [this]; exact h404)
      (by omega)]
    simp only [pow_delays_shift]
    congr 1
    omega

/-- Chaining `k` retried attempts to exhaustion at `attempt + k = MAX_RETRIES`:
the call makes `MAX_RETRIES + 1` attempts and sleeps after each but the last. -/
lemma getFrom_exhaust {α : Type} (outcomes : Nat → AttemptOutcome α) :
    ∀ (k attempt fuel : Nat),
      attempt + k = MAX_RETRIES →
      (∀ j, j ≤ k → (outcomes (attempt + j)).retryableB = true) →
      k < fuel →
      getFrom outcomes attempt fuel =
        ⟨none, MAX_RETRIES + 1,
         (List.range k).map (fun j => 2 ^ (attempt + j))⟩ := by
  intro k
  induction k with
  | zero =>
    intro attempt fuel heq hall hfuel
    obtain ⟨f, rfl⟩ : ∃ f, fuel = f + 1 := ⟨fuel - 1, by omega⟩
    subst heq
    simpa using getFrom_last outcomes f (by simpa using hall 0 (by omega))
  | succ k ih =>
    intro attempt fuel heq hall hfuel
    obtain ⟨f, rfl⟩ : ∃ f, fuel = f + 1 := ⟨fuel - 1, by omega⟩
    rw [getFrom_retry_step outcomes attempt f (by omega)
      (by simpa using hall 0 (by omega))]
    rw [ih (attempt + 1) f (by omega)
      (fun j hj => by
        have := hall (j + 1) (by omega)
        simpa [Nat.add_assoc, Nat.add_comm 1 j] using this)
      (by omega)]
    simp only [pow_delays_shift]

/-- Claim C4: for every call to `HttpService.get` with a started session, an
HTTP 404 response (after any run of retryable errors) terminates the call at
once — no attempt follows it, the backoff sleeps are exactly those of the
preceding retries, and `None` is returned rather than an exception; and when
every attempt fails with a retryable (non-404) error, the call makes the
full `MAX_RETRIES + 1 = 4` attempts with backoff delays 1s, 2s, 4s before
the attempts that follow them, and returns `None` rather than raising. -/
theorem http_get_retry_policy {α : Type} (outcomes : Nat → AttemptOutcome α)
    (k : Nat) (hk : k ≤ MAX_RETRIES)
    (hbefore : ∀ j, j < k → (outcomes j).retryableB = true) :
    (outcomes k = .httpError NOT_FOUND →
      HttpService.get outcomes =
        ⟨none, k + 1, (List.range k).map (fun j => 2 ^ j)⟩) ∧
    ((∀ j, j ≤ MAX_RETRIES → (outcomes j).retryableB = true) →
      HttpService.get outcomes = ⟨none, MAX_RETRIES + 1, [1, 2, 4]⟩) := by
  constructor
  · intro h404
    have := getFrom_skip_to_notFound outcomes k 0 (MAX_RETRIES + 1)
      (by omega) (fun j hj => by simpa using hbefore j hj) (by simpa using h404)
      (by omega)
    simpa [HttpService.get] using this
  · intro hall
    have := getFrom_exhaust outcomes MAX_RETRIES 0 (MAX_RETRIES + 1)
      (by omega) (fun j hj => by simpa using hall j hj) (by omega)
    rw [HttpService.get, this]
    congr 1

/-- Witness for C4: one retryable client error followed by a 404 makes
exactly two attempts, one 1s sleep, and returns `None`. -/
theorem http_get_retry_policy_witness :
    HttpService.get
        (fun j => if j = 0 then AttemptOutcome.clientError (α := Nat)
                  else .httpError NOT_FOUND) =
      ⟨none, 2, [1]⟩ := by
  have h := (http_get_retry_policy
      (fun j => if j = 0 then AttemptOutcome.clientError (α := Nat)
                else .httpError NOT_FOUND)
      1 (by decide)
      (fun j hj => by
        have : j = 0 := by omega
        subst this
        rfl)).1 rfl
  simpa using h

/-! ### Theorems about _fetch_paginated -/

/-- The page loop issues at most one request per remaining iteration. -/
lemma fetchPaginatedAux_requests_length {α : Type}
    (pages : Nat → PageResponse α) :
    ∀ (fuel i : Nat) (results : List α),
      (fetchPaginatedAux pages i results fuel).requests.length ≤ fuel := by
  intro fuel
  induction fuel with
  | zero => intro i results; simp [fetchPaginatedAux]
  | succ n ih =>
    intro i results
    cases h : pages i with
    | absent => simp [fetchPaginatedAux, h]
    | notDict => simp [fetchPaginatedAux, h]
    | dict code data next_page =>
      by_cases hc : code ≠ 0
      · simp [fetchPaginatedAux, h, hc]
      · cases next_page with
        | none => simp [fetchPaginatedAux, h, hc]
        | some p =>
          have := ih (i + 1) (results ++ data.getD [])
          simp [fetchPaginatedAux, h, hc]
          omega

/-- Every request the page loop issues carries `limit = 100`. -/
lemma fetchPaginatedAux_requests_limit {α : Type}
    (pages : Nat → PageResponse α) :
    ∀ (fuel i : Nat) (results : List α), ∀ r ∈ (fetchPaginatedAux pages i results fuel).requests,
      r.limit = PAGE_LIMIT := by
  intro fuel
  induction fuel with
  | zero => intro i results r hr; simp [fetchPaginatedAux] at hr
  | succ n ih =>
    intro i results r hr
    cases h : pages i with
    | absent => simp [fetchPaginatedAux, h] at hr; simp [hr]
    | notDict => simp [fetchPaginatedAux, h] at hr; simp [hr]
    | dict code data next_page =>
      by_cases hc : code ≠ 0
      · simp [fetchPaginatedAux, h, hc] at hr; simp [hr]
      · cases next_page with
        | none => simp [fetchPaginatedAux, h, hc] at hr; simp [hr]
        | some p =>
          simp [fetchPaginatedAux, h, hc] at hr
          rcases hr with rfl | hr
          · rfl
          · exact ih (i + 1) (results ++ data.getD []) r hr

/-- Claim C5: for every provider behaviour — including one returning a
non-null `next_page` on every page — `_fetch_paginated` issues at most
`MAX_PAGE = 100` page requests (the loop is a `for` over `range(MAX_PAGE)`,
so it terminates), every request carrying the fixed page size
`limit = 100`. -/
theorem fetch_paginated_page_cap {α : Type} (pages : Nat → PageResponse α) :
    (fetchPaginated pages).requests.length ≤ MAX_PAGE ∧
    ∀ r ∈ (fetchPaginated pages).requests, r.limit = PAGE_LIMIT :=
  ⟨fetchPaginatedAux_requests_length pages MAX_PAGE 0 [],
   fetchPaginatedAux_requests_limit pages MAX_PAGE 0 []⟩

/-- Witness for C5: a provider that always promises a next page is cut off
at the 100-page cap. -/
theorem fetch_paginated_page_cap_witness :
    (fetchPaginated (fun _ => PageResponse.dict (α := Nat) 0 (some [1]) (some 2))).requests.length
        ≤ MAX_PAGE ∧
    ∀ r ∈ (fetchPaginated (fun _ => PageResponse.dict (α := Nat) 0 (some [1]) (some 2))).requests,
      r.limit = PAGE_LIMIT :=
  fetch_paginated_page_cap (fun _ => PageResponse.dict 0 (some [1]) (some 2))

/-- A run of continuing pages followed by a bad envelope makes the loop
raise `ChainbaseAPIError` right after the bad page, having issued exactly
`k + 1` requests. -/
lemma fetchPaginatedAux_abort {α : Type} (pages : Nat → PageResponse α) :
    ∀ (k i : Nat) (results : List α) (fuel : Nat),
      (∀ j, j < k → (pages (i + j)).isContinuing = true) →
      (pages (i + k)).isBadEnvelope = true →
      k < fuel →
      (fetchPaginatedAux pages i results fuel).result = .error .apiError ∧
      (fetchPaginatedAux pages i results fuel).requests.length = k + 1 := by
  intro k
  induction k with
  | zero =>
    intro i results fuel _ hbad hfuel
    obtain ⟨f, rfl⟩ : ∃ f, fuel = f + 1 := ⟨fuel - 1, by omega⟩
    rw [Nat.add_zero] at hbad
    cases h : pages i with
    | absent => rw [h] at hbad; simp [PageResponse.isBadEnvelope] at hbad
    | notDict => simp [fetchPaginatedAux, h]
    | dict code data next_page =>
      rw [h] at hbad
      have hc : code ≠ 0 := by
        simpa [PageResponse.isBadEnvelope] using hbad
      simp [fetchPaginatedAux, h, hc]
  | succ k ih =>
    intro i results fuel hcont hbad hfuel
    obtain ⟨f, rfl⟩ : ∃ f, fuel = f + 1 := ⟨fuel - 1, by omega⟩
    have h0 := hcont 0 (by omega)
    rw [show i + 0 = i by omega] at h0
    cases h : pages i with
    | absent => rw [h] at h0; simp [PageResponse.isContinuing] at h0
    | notDict => rw [h] at h0; simp [PageResponse.isContinuing] at h0
    | dict code data next_page =>
      rw [h] at h0
      cases next_page with
      | none => simp [PageResponse.isContinuing] at h0
      | some p =>
        have hc : code = 0 := by
          simpa [PageResponse.isContinuing] using h0
        have step := ih (i + 1) (results ++ data.getD []) f
          (fun j hj => by
            have := hcont (j + 1) (by omega)
            simpa [Nat.add_assoc, Nat.add_comm 1 j] using this)
          (by
            have : i + 1 + k = i + (k + 1) := by omega
            rw [this]; exact hbad)
          (by omega)
        simp [fetchPaginatedAux, h, hc, step.1, step.2]

/-- Claim C6: during a paginated fetch, a page whose JSON is not an object,
or whose envelope `code` is not 0, makes `_fetch_paginated` raise
`ChainbaseAPIError`, aborting the whole fetch — no further page is
requested and no partial item list is returned. -/
theorem fetch_paginated_abort_on_bad_envelope {α : Type}
    (pages : Nat → PageResponse α) (k : Nat) (hk : k < MAX_PAGE)
    (hbefore : ∀ j, j < k → (pages j).isContinuing = true)
    (hbad : (pages k).isBadEnvelope = true) :
    (fetchPaginated pages).result = .error .apiError ∧
    (fetchPaginated pages).requests.length = k + 1 ∧
    ∀ items, (fetchPaginated pages).result ≠ .ok items := by
  have h := fetchPaginatedAux_abort pages k 0 [] MAX_PAGE
    (fun j hj => by simpa using hbefore j hj) (by simpa using hbad) hk
  have h1 : (fetchPaginated pages).result = .error .apiError := h.1
  have h2 : (fetchPaginated pages).requests.length = k + 1 := h.2
  exact ⟨h1, h2, fun items hcontra => by
    rw [h1] at hcontra
    exact Except.noConfusion hcontra⟩

/-- Witness for C6: a first page that is not a JSON object aborts the fetch
after exactly one request. -/
theorem fetch_paginated_abort_witness :
    (fetchPaginated (fun _ => PageResponse.notDict (α := Nat))).result = .error .apiError ∧
    (fetchPaginated (fun _ => PageResponse.notDict (α := Nat))).requests.length = 0 + 1 ∧
    ∀ items, (fetchPaginated (fun _ => PageResponse.notDict (α := Nat))).result ≠ .ok items :=
  fetch_paginated_abort_on_bad_envelope (fun _ => PageResponse.notDict) 0
    (by decide) (fun j hj => absurd hj (by omega)) rfl

/-! ### Theorems about fetch_data -/

/-- Claim C1: for every address and every behaviour of the three sub-fetches,
if all three succeed the record `fetch_data` returns is the full shape
`{address, tokens, transactions, balance}` (the `balance` key present); if
at least one raises, the record is exactly
`{address, tokens: [], transactions: []}` — no `balance` key and no partial
token or transaction data. The return type `AddressRecord` (not `Except`)
states that the exception never propagates out of `fetch_data`. -/
theorem fetch_data_failure_policy (address : String)
    (tokensRes : Except PyExn (List TokenMeta))
    (txRes : Except PyExn (List TransactionMeta))
    (balRes : Except PyExn String) :
    (∀ ts xs b, tokensRes = .ok ts → txRes = .ok xs → balRes = .ok b →
      fetch_data address tokensRes txRes balRes =
        { address := address,
          tokens := ts.map (fun token => token.contract_address),
          transactions := xs.map (fun tx => TxProj.mk tx.value tx.block_timestamp),
          balance := some b }) ∧
    ((tokensRes.isOk = false ∨ txRes.isOk = false ∨ balRes.isOk = false) →
      fetch_data address tokensRes txRes balRes = degraded_record address) := by
  constructor
  · rintro ts xs b rfl rfl rfl
    rfl
  · rintro (h | h | h) <;>
      rcases tokensRes with ts | e <;> rcases txRes with xs | e2 <;>
      rcases balRes with b | e3 <;>
      first
        | rfl
        | simp [Except.isOk, Except.toBool] at h

/-- Witness for C1: the full shape on an all-success run, the degraded
record when the transaction sub-fetch raises. -/
theorem fetch_data_failure_policy_witness :
    fetch_data "0xA" (.ok [⟨"0xT1"⟩]) (.ok [⟨"5", "t0"⟩]) (.ok "100") =
      { address := "0xA", tokens := ["0xT1"],
        transactions := [⟨"5", "t0"⟩], balance := some "100" } ∧
    fetch_data "0xB" (.ok [⟨"0xT1"⟩]) (.error "TimeoutError") (.ok "100") =
      degraded_record "0xB" :=
  ⟨(fetch_data_failure_policy "0xA" (.ok [⟨"0xT1"⟩]) (.ok [⟨"5", "t0"⟩])
      (.ok "100")).1 [⟨"0xT1"⟩] [⟨"5", "t0"⟩] "100" rfl rfl rfl,
   (fetch_data_failure_policy "0xB" (.ok [⟨"0xT1"⟩]) (.error "TimeoutError")
      (.ok "100")).2 (Or.inr (Or.inl rfl))⟩

/-- Claim C2: `ChainbaseCrawlerService` defines only `get_tokens` and
`get_transactions`; the `get_balance` attribute lookup in `fetch_data`
raises `AttributeError`, so for every input and every provider behaviour
(any token/transaction sub-fetch outcomes, any would-be balance call) the
record `fetch_data` returns is the degraded record with no `balance` key. -/
theorem fetch_data_always_degraded (address : String)
    (tokensRes : Except PyExn (List TokenMeta))
    (txRes : Except PyExn (List TransactionMeta))
    (call : ServiceMethod → Except PyExn String) :
    ServiceMethod.get_balance ∉ ChainbaseCrawlerService.methods ∧
    fetch_data address tokensRes txRes
        ((ChainbaseCrawlerService.getattr .get_balance).bind call) =
      degraded_record address ∧
    (fetch_data address tokensRes txRes
        ((ChainbaseCrawlerService.getattr .get_balance).bind call)).balance =
      none := by
  have hb : (ChainbaseCrawlerService.getattr .get_balance).bind call =
      .error "AttributeError" := rfl
  refine ⟨by decide, ?_, ?_⟩ <;>
    rw [hb] <;> rcases tokensRes with ts | e <;> rcases txRes with xs | e2 <;> rfl

/-! ### Theorems about process_batch -/

/-- Claim C7: for every batch whose address count exceeds the credential
count, `process_batch` raises `ValueError` before creating any enrichment
task — the task list is empty, so zero network calls are issued for that
batch. -/
theorem process_batch_credential_exhaustion (api_keys : List String)
    (enrich : String → String → AddressRecord) (addresses : List String)
    (h : addresses.length > api_keys.length) :
    (process_batch api_keys enrich addresses).tasks = [] ∧
    (process_batch api_keys enrich addresses).result =
      .error "ValueError: Number of addresses exceeds number of API keys." := by
  simp [process_batch, h]

/-- Witness for C7: one address against zero credentials creates no task
and raises. -/
theorem process_batch_credential_exhaustion_witness :
    (process_batch [] (fun _ a => degraded_record a) ["0xA"]).tasks = [] ∧
    (process_batch [] (fun _ a => degraded_record a) ["0xA"]).result =
      .error "ValueError: Number of addresses exceeds number of API keys." :=
  process_batch_credential_exhaustion [] (fun _ a => degraded_record a)
    ["0xA"] (by decide)

/-- Claim C10: when the `API_KEYS` environment variable is unset or empty,
the parsed credential list is `[""]` — one element, the empty string —
never `[]`; hence `BATCH_SIZE = 1`, `process_batch` on a single address
does not raise the credential-exhaustion error, and the single task carries
the empty-string api key. -/
theorem api_keys_empty_env_fallback
    (enrich : String → String → AddressRecord) (address : String) :
    parseApiKeys "" = [""] ∧
    (parseApiKeys "").length = 1 ∧
    (process_batch (parseApiKeys "") enrich [address]).result =
      .ok [enrich "" address] ∧
    (process_batch (parseApiKeys "") enrich [address]).tasks =
      [("", address)] := by
  exact ⟨rfl, rfl, rfl, rfl⟩

/-! ### Theorems about the batch loop of main -/

/-- For a positive slice size, one slicing step re-assembles the list. -/
lemma take_cons_append_drop (bs : Nat) (h : 1 ≤ bs) (a : String)
    (rest : List String) :
    (a :: rest).take bs ++ rest.drop (bs - 1) = a :: rest := by
  obtain ⟨m, rfl⟩ : ∃ m, bs = m + 1 := ⟨bs - 1, by omega⟩
  simp [List.take_succ_cons, List.take_append_drop]

/-- For a positive slice size, the slices flatten back to the input list. -/
lemma batch_slices_go_flatten (bs : Nat) (h : 1 ≤ bs) :
    ∀ (fuel : Nat) (l : List String), l.length ≤ fuel →
      (batch_slices_go bs fuel l).flatten = l := by
  intro fuel
  induction fuel with
  | zero =>
    intro l hl
    have : l = [] := List.eq_nil_of_length_eq_zero (by omega)
    subst this
    simp [batch_slices_go]
  | succ n ih =>
    intro l hl
    cases l with
    | nil => simp [batch_slices_go]
    | cons a rest =>
      have hlen : (rest.drop (bs - 1)).length ≤ n := by
        simp only [List.length_drop]
        simp only [List.length_cons] at hl
        omega
      simp only [batch_slices_go, List.flatten_cons, ih _ hlen]
      exact take_cons_append_drop bs h a rest

/-- Every slice has length at most the slice size. -/
lemma batch_slices_go_length_le (bs : Nat) :
    ∀ (fuel : Nat) (l : List String) (b : List String),
      b ∈ batch_slices_go bs fuel l → b.length ≤ bs := by
  intro fuel
  induction fuel with
  | zero => intro l b hb; simp [batch_slices_go] at hb
  | succ n ih =>
    intro l b hb
    cases l with
    | nil => simp [batch_slices_go] at hb
    | cons a rest =>
      simp only [batch_slices_go, List.mem_cons] at hb
      rcases hb with rfl | hb
      · exact List.length_take_le bs (a :: rest)
      · exact ih _ _ hb

/-- The record `fetch_data` returns always carries the given address, on
both the success and the degraded path. -/
lemma fetch_data_address_eq (address : String)
    (tokensRes : Except PyExn (List TokenMeta))
    (txRes : Except PyExn (List TransactionMeta))
    (balRes : Except PyExn String) :
    (fetch_data address tokensRes txRes balRes).address = address := by
  rcases tokensRes with ts | e <;> rcases txRes with xs | e2 <;>
    rcases balRes with b | e3 <;> rfl

/-- A batch no larger than the credential pool gathers one record per
address, in input order. -/
lemma process_batch_ok (api_keys : List String)
    (tok : String → String → Except PyExn (List TokenMeta))
    (tx : String → String → Except PyExn (List TransactionMeta))
    (bal : String → String → Except PyExn String)
    (b : List String) (h : b.length ≤ api_keys.length) :
    ∃ rs, (process_batch api_keys (enrichOf tok tx bal) b).result = .ok rs ∧
      rs.map (fun r => r.address) = b ∧ rs.length = b.length := by
  refine ⟨(api_keys.zip b).map (fun t => enrichOf tok tx bal t.1 t.2), ?_, ?_, ?_⟩
  · simp [process_batch, Nat.not_lt.mpr h]
  · rw [List.map_map]
    calc (api_keys.zip b).map ((fun r => r.address) ∘ fun t => enrichOf tok tx bal t.1 t.2)
        = (api_keys.zip b).map Prod.snd :=
          List.map_congr_left (fun t _ => fetch_data_address_eq t.2 _ _ _)
      _ = b := List.map_snd_zip api_keys b h
  · simp [List.length_zip]
    omega

/-- Running the batch loop over slices that all fit the credential pool
succeeds and appends, per slice, one record per address in input order. -/
lemma run_batches_ok (api_keys : List String)
    (tok : String → String → Except PyExn (List TokenMeta))
    (tx : String → String → Except PyExn (List TransactionMeta))
    (bal : String → String → Except PyExn String) :
    ∀ (slices : List (List String)) (acc : List AddressRecord),
      (∀ b ∈ slices, b.length ≤ api_keys.length) →
      ∃ rs, run_batches api_keys (enrichOf tok tx bal) slices acc = .ok rs ∧
        rs.map (fun r => r.address) =
          acc.map (fun r => r.address) ++ slices.flatten ∧
        rs.length = acc.length + slices.flatten.length := by
  intro slices
  induction slices with
  | nil => intro acc _; exact ⟨acc, rfl, by simp, by simp⟩
  | cons b more ih =>
    intro acc hall
    obtain ⟨rs1, hres, hmap1, hlen1⟩ :=
      process_batch_ok api_keys tok tx bal b (hall b (by simp))
    obtain ⟨rs, hrun, hmap, hlen⟩ :=
      ih (acc ++ rs1) (fun c hc => hall c (by simp [hc]))
    refine ⟨rs, ?_, ?_, ?_⟩
    · simpa [run_batches, hres] using hrun
    · rw [hmap]
      simp [hmap1]
    · rw [hlen]
      simp [hlen1]
      omega

/-- Claim C3: for every credential list (non-empty, as produced by
splitting the environment value) and every input address list, the batch
loop of `main` produces exactly one record per input address, in input
order, across all batches. -/
theorem main_batch_order_preserved (api_keys : List String)
    (tok : String → String → Except PyExn (List TokenMeta))
    (tx : String → String → Except PyExn (List TransactionMeta))
    (bal : String → String → Except PyExn String)
    (addresses : List String) (h : 1 ≤ api_keys.length) :
    ∃ rs, main_collect api_keys (enrichOf tok tx bal) addresses = .ok rs ∧
      rs.length = addresses.length ∧
      rs.map (fun r => r.address) = addresses := by
  obtain ⟨rs, hrun, hmap, hlen⟩ := run_batches_ok api_keys tok tx bal
    (batch_slices api_keys.length addresses) []
    (fun b hb => batch_slices_go_length_le api_keys.length _ _ _ hb)
  have hflat : (batch_slices api_keys.length addresses).flatten = addresses :=
    batch_slices_go_flatten api_keys.length h addresses.length addresses
      (le_refl _)
  refine ⟨rs, hrun, ?_, ?_⟩
  · rw [hlen, hflat]
    simp
  · rw [hmap, hflat]
    simp

/-- Witness for C3: one credential, two addresses, all sub-fetches
succeeding with empty data. -/
theorem main_batch_order_preserved_witness :
    ∃ rs, main_collect ["k1"]
        (enrichOf (fun _ _ => .ok []) (fun _ _ => .ok []) (fun _ _ => .ok "0"))
        ["0xA", "0xB"] = .ok rs ∧
      rs.length = (["0xA", "0xB"] : List String).length ∧
      rs.map (fun r => r.address) = ["0xA", "0xB"] :=
  main_batch_order_preserved ["k1"] (fun _ _ => .ok []) (fun _ _ => .ok [])
    (fun _ _ => .ok "0") ["0xA", "0xB"] (by decide)

/-! ### Theorems about the persistence tail of main -/

/-- Claim C8: for every run in which the bulk write raises, for any reason:
no exception propagates out of `main`, the write is attempted exactly once
(never retried), and — when the local file write goes through — a backup
file named `backup_results_<ts>.json` is written containing the full
result list. -/
theorem backup_on_insert_failure (mongoUri : String)
    (final_results : List AddressRecord) (insertOutcome : Except PyExn Nat)
    (backupWrite : Except PyExn Unit) (ts : String) (e : PyExn)
    (huri : mongoUri ≠ "") (hres : final_results ≠ [])
    (hfail : insertOutcome = .error e) :
    (main_tail mongoUri final_results insertOutcome backupWrite ts).uncaught =
      none ∧
    (main_tail mongoUri final_results insertOutcome backupWrite
      ts).insertAttempts = 1 ∧
    (backupWrite = .ok () →
      (main_tail mongoUri final_results insertOutcome backupWrite
        ts).backupFile =
        some ("backup_results_" ++ ts ++ ".json", final_results)) := by
  subst hfail
  have hne : final_results.isEmpty = false := by
    simpa [List.isEmpty_iff] using hres
  rcases backupWrite with u | e2 <;>
    simp [main_tail, huri, hne]

/-- Witness for C8: a failing insert with a succeeding file write yields
the backup file, one insert attempt, and no uncaught exception. -/
theorem backup_on_insert_failure_witness :
    (main_tail "mongodb://db" [degraded_record "0xA"] (.error "BulkWriteError")
        (.ok ()) "20260101_000000").uncaught = none ∧
    (main_tail "mongodb://db" [degraded_record "0xA"] (.error "BulkWriteError")
        (.ok ()) "20260101_000000").insertAttempts = 1 ∧
    (Except.ok () = Except.ok (ε := PyExn) () →
      (main_tail "mongodb://db" [degraded_record "0xA"]
          (.error "BulkWriteError") (.ok ()) "20260101_000000").backupFile =
        some ("backup_results_" ++ "20260101_000000" ++ ".json",
          [degraded_record "0xA"])) :=
  backup_on_insert_failure "mongodb://db" [degraded_record "0xA"]
    (.error "BulkWriteError") (.ok ()) "20260101_000000" "BulkWriteError"
    (by decide) (by decide) rfl

/-- Counterexample to claim C9 as stated: on the path where `MONGO_URI` is
absent, `main` returns early — before `await http_client.close()` — so the
session is not closed. -/
theorem session_not_closed_without_mongo_uri :
    (main_tail "" [degraded_record "0xA"] (.ok 1) (.ok ())
        "20260101_000000").sessionClosed = false := by
  rfl

/-- Claim C9 (amended): the HTTP session is explicitly closed before `main`
returns on the success path and on the persistence-failure path (whenever
`MONGO_URI` is set — whatever the insert and backup-write outcomes); on the
path where `MONGO_URI` is absent, `main` returns early without closing the
session. -/
theorem session_close_paths (mongoUri : String)
    (final_results : List AddressRecord) (insertOutcome : Except PyExn Nat)
    (backupWrite : Except PyExn Unit) (ts : String)
    (huri : mongoUri ≠ "") :
    (main_tail mongoUri final_results insertOutcome backupWrite
      ts).sessionClosed = true ∧
    (main_tail "" final_results insertOutcome backupWrite ts).sessionClosed =
      false := by
  constructor
  · rcases he : final_results.isEmpty <;>
      rcases insertOutcome with n | e <;>
      rcases backupWrite with u | e2 <;>
      simp [main_tail, huri, he]
  · rfl

/-- Witness for C9 (amended): with `MONGO_URI` set the session is closed
even when both the insert and the backup write raise; with it empty the
session is left open. -/
theorem session_close_paths_witness :
    (main_tail "mongodb://db" [degraded_record "0xA"] (.error "BulkWriteError")
        (.error "OSError") "20260101_000000").sessionClosed = true ∧
    (main_tail "" [degraded_record "0xA"] (.error "BulkWriteError")
        (.error "OSError") "20260101_000000").sessionClosed = false :=
  session_close_paths "mongodb://db" [degraded_record "0xA"]
    (.error "BulkWriteError") (.error "OSError") "20260101_000000" (by decide)

end GeoAddCrawl
